import Mathlib

/-!
Verification development for the IGMGuesses component-fitting workflow
(xastropy/xguis/igmguesses.py).

The embedding models the numeric values handled by the Python code
(numpy floats, astropy Quantity values) as rationals.  Two numeric
routines supplied by external libraries are kept abstract and passed as
explicit function parameters:
  * `tenPow` models the float operation `10.0 ** x`;
  * `voigt` models `linetools.analysis.voigt.voigt_from_abslines`,
    which evaluates the smoothed combined Voigt profile on the
    wavelength grid.
Astropy units are dropped: every quantity is represented by its value in
the unit the Python code uses at that place (AA, km/s, dex).  Unit
conversions performed by astropy amount to fixed rational factors and
are noted where relevant.
-/

/-- Python exception kinds that the modelled code paths can raise. -/
inductive PyErr where
  | valueError
  | indexError
  | keyError
deriving DecidableEq, Repr, Inhabited

/-- Speed of light in km/s, the module-level constant
`c_mks = const.c.to(km/s).value` of igmguesses.py. -/
def c_mks : ℚ := 2997924580 / 10000

/-- Atomic datum returned by the LineList catalog for one transition:
rest wavelength (AA), oscillator strength, upper level energy and the
transition name.  The catalog itself is an external collaborator; its
answer to a lookup is modelled as a plain list of these records. -/
structure Transition where
  wrest : ℚ
  f : ℚ
  Ej : ℚ
  name : String
deriving DecidableEq, Repr, Inhabited

/-- One absorption line: the atomic data of its transition together
with the kinematic attributes the GUI writes into `line.attrib` and
`line.analy` (redshift, log column density, linear column density,
Doppler parameter, velocity limits). -/
structure AbsLine where
  wrest : ℚ
  f : ℚ
  Ej : ℚ
  name : String
  z : ℚ
  logN : ℚ
  b : ℚ
  N : ℚ
  vlimLo : ℚ
  vlimHi : ℚ
deriving DecidableEq, Repr, Inhabited

/-- A component: the fields of the linetools AbsComponent that
igmguesses reads or writes.  `abslines` models `comp._abslines`,
`maskAbslines` models the parallel integer array `comp.mask_abslines`,
and `logN`, `z`, `b`, `reliability` model the entries of `comp.attrib`
that the GUI uses. -/
structure Comp where
  zcomp : ℚ
  vlimLo : ℚ
  vlimHi : ℚ
  initWrest : ℚ
  name : String
  comment : String
  logN : ℚ
  z : ℚ
  b : ℚ
  reliability : String
  abslines : List AbsLine
  maskAbslines : List ℤ
deriving DecidableEq, Repr, Inhabited

/-- Denominator of the optically thin equivalent width estimate in
mask_comp_lines: the literal `1.13 * 10**12` of the source. -/
def ewDenom : ℚ := 1130000000000

/-- Equivalent width estimate of one line under the optically thin
approximation, exactly as computed in `mask_comp_lines`:
`ew = fosc * wrest**2 * 10**line.attrib[logN] / u.cm / (1.13 * 10**12)`.
The value carries the unit AA*AA/cm; the threshold `min_ew` is compared
in the same unit (the astropy unit conversion is a fixed overall factor
absorbed into the threshold parameter). -/
def ewLine (tenPow : ℚ → ℚ) (line : AbsLine) : ℚ :=
  line.f * line.wrest ^ 2 * tenPow line.logN / ewDenom

/-- Body of the per-line branch of `mask_comp_lines`: a line weaker
than the threshold gets mask 0; otherwise a previously masked-out line
(mask 0) is reset to 2 and any other mask value is left unchanged. -/
def maskStep (tenPow : ℚ → ℚ) (minEw : ℚ) (line : AbsLine) (m : ℤ) : ℤ :=
  if ewLine tenPow line < minEw then 0
  else if m = 0 then 2 else m

/-- Loop of `mask_comp_lines` over `enumerate(comp._abslines)`, updating
`comp.mask_abslines[ii]` in place.  Mask entries beyond the number of
lines are never visited by the Python loop and are returned unchanged;
a mask array shorter than the line list would raise IndexError in
Python and is unreachable under the length invariant, here the
traversal simply stops. -/
def maskLoop (tenPow : ℚ → ℚ) (minEw : ℚ) : List AbsLine → List ℤ → List ℤ
  | [], ms => ms
  | _ :: _, [] => []
  | l :: ls, m :: ms => maskStep tenPow minEw l m :: maskLoop tenPow minEw ls ms

/-- The function `mask_comp_lines(comp, min_ew)`: re-evaluates the whole
mask array of a component from the current per-line log column
densities.  Only the mask array is mutated. -/
def mask_comp_lines (tenPow : ℚ → ℚ) (minEw : ℚ) (comp : Comp) : Comp :=
  { comp with maskAbslines := maskLoop tenPow minEw comp.abslines comp.maskAbslines }

/-- The function `sync_comp_lines(comp)`: pushes the component
attributes logN, b, z down onto every owned line. -/
def sync_comp_lines (comp : Comp) : Comp :=
  { comp with
    abslines := comp.abslines.map
      (fun l => { l with logN := comp.logN, b := comp.b, z := comp.z }) }

/-- Construction of one AbsLine inside `create_component`:
`aline = AbsLine(trans[wrest])` followed by
`aline.attrib[z] = z` and `aline.analy[vlim] = vlim`.  The remaining
attributes keep the linetools defaults (zero). -/
def lineFromTrans (z : ℚ) (vlim : ℚ × ℚ) (t : Transition) : AbsLine :=
  { wrest := t.wrest, f := t.f, Ej := t.Ej, name := t.name,
    z := z, logN := 0, b := 0, N := 0, vlimLo := vlim.1, vlimHi := vlim.2 }

/-- Display name of a new component.  The source formats
`z{:.5f}_{species}`; decimal float formatting is abstracted, the
species part is the first word of the first line name as in the
source. -/
def compName (lineName : String) : String :=
  "z_" ++ ((lineName.splitOn " ").headD "")

/-- The function `create_component(z, wrest, linelist, vlim)`.  The
external catalog answer `linelist.all_transitions(wrest)` is passed in
as the list `allTrans` (a single dict answer is the singleton list).
With an empty answer the source evaluates `abslines[0]` on an empty
list, which raises IndexError.  Otherwise an AbsComponent is built from
the lines (zcomp and vlim taken from them), attributes are initialised
by `comp_init_attrib` (logN 0, b 0, z = zcomp, Reliability None), and
every mask entry is initialised to 2. -/
def create_component (z : ℚ) (wrest : ℚ) (allTrans : List Transition)
    (vlim : ℚ × ℚ) : Except PyErr Comp :=
  let abslines := allTrans.map (lineFromTrans z vlim)
  match abslines with
  | [] => Except.error PyErr.indexError
  | a0 :: _ =>
      Except.ok
        { zcomp := z, vlimLo := vlim.1, vlimHi := vlim.2,
          initWrest := wrest,
          name := compName a0.name,
          comment := "None",
          logN := 0, z := z, b := 0, reliability := "None",
          abslines := abslines,
          maskAbslines := List.replicate abslines.length 2 }

/-- Minimum of a list of rationals, modelling `np.min` (the empty case
is unreachable at the call sites, a junk value is returned). -/
def listMin (xs : List ℚ) : ℚ := xs.foldl min (xs.headD 0)

/-- Maximum of a list of rationals, modelling `np.max`. -/
def listMax (xs : List ℚ) : ℚ := xs.foldl max (xs.headD 0)

/-- Filter of the `update_model` loop for one (line, mask) pair: the
line is used when its mask entry is nonzero and its observed wavelength
`(1 + z) * wrest` lies strictly inside the spectral coverage. -/
def goodLinePair (wvmin wvmax : ℚ) (p : AbsLine × ℤ) : Bool :=
  p.2 != 0 &&
    decide (wvmin < (1 + p.1.z) * p.1.wrest) &&
    decide ((1 + p.1.z) * p.1.wrest < wvmax)

/-- Collection of the unmasked, in-coverage lines of every component,
as gathered by `update_model` into `gdlin`.  Each collected line gets
`attrib[N] = 10**attrib[logN] / cm**2` written before collection. -/
def gdlinOf (tenPow : ℚ → ℚ) (comps : List Comp) (wvmin wvmax : ℚ) :
    List AbsLine :=
  comps.flatMap (fun comp =>
    (((comp.abslines.zip comp.maskAbslines).filter
        (goodLinePair wvmin wvmax)).map
      (fun p => { p.1 with N := tenPow p.1.logN })))

/-- The method `IGGVelPlotWidget.update_model`, restricted to the model
flux array it produces.  With an empty registry the model flux is
overwritten with ones in place (`self.model.flux[:] = 1`).  Otherwise
the good lines are gathered; when at least one exists the model is
replaced by the Voigt synthesis over the full wavelength grid, and when
none exists the prior model array is left untouched.  The external
routine `voigt_from_abslines(wavelength, gdlin, fwhm)` is the abstract
parameter `voigt`. -/
def update_model (tenPow : ℚ → ℚ)
    (voigt : List ℚ → List AbsLine → ℚ → List ℚ)
    (comps : List Comp) (wavelength : List ℚ) (fwhm : ℚ)
    (prior : List ℚ) : List ℚ :=
  if comps.isEmpty then prior.map (fun _ => 1)
  else
    let gdlin := gdlinOf tenPow comps (listMin wavelength) (listMax wavelength)
    if gdlin.isEmpty then prior
    else voigt wavelength gdlin fwhm

/-- Serialized record of one component, the dict written under
`out_dict[cmps][name]` by `write_out` and read back by
`read_previous`.  Optional fields model dict keys that may be absent:
legacy files may lack `lines` or `mask_abslines`, and may carry
`Quality` instead of `Reliability`.  Line records are modelled by the
AbsLine fields that `AbsLine.to_dict` and `from_dict` transport. -/
structure CompRecord where
  lines : Option (List AbsLine)
  zcomp : ℚ
  zfit : ℚ
  Nfit : ℚ
  bfit : ℚ
  wrest : ℚ
  vlim : ℚ × ℚ
  reliability : Option String
  quality : Option String
  comment : String
  mask_abslines : Option (List ℤ)
deriving DecidableEq, Repr, Inhabited

/-- Pruning step of `write_out`, executed on the deep copy of a
component: lines whose mask entry is 0 are dropped from `_abslines`,
and the mask array is filtered in parallel. -/
def pruneComp (comp : Comp) : Comp :=
  let kept := (comp.abslines.zip comp.maskAbslines).filter
      (fun p => p.2 != 0)
  { comp with
    abslines := kept.map Prod.fst,
    maskAbslines := kept.map Prod.snd }

/-- Serialization of one component by `write_out`: the record is built
from the pruned deep copy (deep copying immutable values is the
identity here; the point is that the live component is never the object
being pruned).  `to_dict` contributes the lines; the explicitly set
keys zcomp, zfit, Nfit, bfit, wrest, vlim, Reliability, Comment and
mask_abslines follow the source line by line. -/
def compToRecord (comp : Comp) : CompRecord :=
  let p := pruneComp comp
  { lines := some p.abslines,
    zcomp := p.zcomp,
    zfit := p.z,
    Nfit := p.logN,
    bfit := p.b,
    wrest := p.initWrest,
    vlim := (p.vlimLo, p.vlimHi),
    reliability := some p.reliability,
    quality := none,
    comment := p.comment,
    mask_abslines := some p.maskAbslines }

/-- Top level persisted document: keys fwhm, spec_file, bad_pixels and
cmps of the JSON file. -/
structure IGMGDict where
  fwhm : ℚ
  spec_file : String
  bad_pixels : List ℕ
  cmps : List (String × CompRecord)
deriving DecidableEq, Repr, Inhabited

/-- The method `IGMGuessesGui.write_out`, restricted to persistent
state: it returns the live component registry after the call (the
pruning happens on `copy.deepcopy(self.comps_widg.all_comp)`, so the
live registry is returned unchanged) together with the produced
document.  `bad_pixels` is `np.where(spec.bad_pixels == 1)[0]`. -/
def write_out (comps : List Comp) (specFile : String) (fwhm : ℚ)
    (badPixels : List ℤ) : List Comp × IGMGDict :=
  (comps,
   { fwhm := fwhm,
     spec_file := specFile,
     bad_pixels := (badPixels.enum.filter (fun p => p.2 = 1)).map Prod.fst,
     cmps := comps.map (fun c => (c.name, compToRecord c)) })

/-- Reconstruction performed by `AbsComponent.from_dict` followed by
`comp_init_attrib` and the `init_wrest` assignment in
`read_previous`: component geometry comes from the record, the lines
come from the `lines` sub-records, and the fit attributes are reset to
the defaults (they are overwritten right after by the zfit, bfit, Nfit
assignments).  The mask array is set by the caller. -/
def fromDictComp (rec : CompRecord) (lrecs : List AbsLine) : Comp :=
  { zcomp := rec.zcomp,
    vlimLo := rec.vlim.1,
    vlimHi := rec.vlim.2,
    initWrest := rec.wrest,
    name := "",
    comment := "None",
    logN := 0, z := rec.zcomp, b := 0, reliability := "None",
    abslines := lrecs,
    maskAbslines := [] }

/-- Warning emitted when a legacy record has no `mask_abslines` key. -/
def maskDefaultWarning : String := "Setting all abslines to 2"

/-- Per-record body of the `read_previous` component loop.  A record
with a `lines` key goes through `AbsComponent.from_dict`; its mask is
taken from `mask_abslines`, defaulting to all 2 with a warning when the
key is missing.  A record without `lines` goes through the legacy path
`add_component(wrest, zcomp, vlim)`, hence `create_component` against
the catalog.  Afterwards the name is set to the dict key, z, b, logN
are set from zfit, bfit, Nfit, Reliability falls back to the legacy
Quality key (a missing pair of both raises KeyError), the comment is
copied, and the component is synced and re-masked. -/
def readCompBase (catalog : ℚ → List Transition) (rec : CompRecord) :
    Except PyErr (Comp × List String) :=
  match rec.lines with
  | some lrecs =>
      let c := fromDictComp rec lrecs
      match rec.mask_abslines with
      | some m => Except.ok ({ c with maskAbslines := m }, [])
      | none =>
          Except.ok
            ({ c with maskAbslines := List.replicate c.abslines.length 2 },
             [maskDefaultWarning])
  | none =>
      match create_component rec.zcomp rec.wrest (catalog rec.wrest)
          rec.vlim with
      | Except.error e => Except.error e
      | Except.ok c => Except.ok (c, [])

/-- Reliability lookup of `read_previous`: the `Reliability` key with a
fallback to the legacy `Quality` key; a record carrying neither raises
KeyError (the bare except catches the first miss only). -/
def readRel (rec : CompRecord) : Except PyErr String :=
  match rec.reliability with
  | some r => Except.ok r
  | none =>
      match rec.quality with
      | some q => Except.ok q
      | none => Except.error PyErr.keyError

def readCompRecord (tenPow : ℚ → ℚ) (catalog : ℚ → List Transition)
    (minEw : ℚ) (key : String) (rec : CompRecord) :
    Except PyErr (Comp × List String) :=
  match readCompBase catalog rec with
  | Except.error e => Except.error e
  | Except.ok base =>
      match readRel rec with
      | Except.error e => Except.error e
      | Except.ok rel =>
          Except.ok
            (mask_comp_lines tenPow minEw (sync_comp_lines
              { base.1 with
                name := key,
                z := rec.zfit,
                b := rec.bfit,
                logN := rec.Nfit,
                reliability := rel,
                comment := rec.comment }),
             base.2)

/-- Warning emitted by `read_previous` when the stored spectrum file
name differs from the file name of the session spectrum. -/
def specFileWarning : String := "Spec file names do not match"

/-- Component loop of `read_previous`: the records are read in order,
each rebuilt component is appended to the registry and each warning to
the warning list; the first failing record aborts the whole read. -/
def readComps (tenPow : ℚ → ℚ) (catalog : ℚ → List Transition)
    (minEw : ℚ) : List (String × CompRecord) →
    List Comp × List String →
    Except PyErr (List Comp × List String)
  | [], acc => Except.ok acc
  | kv :: rest, acc =>
      match readCompRecord tenPow catalog minEw kv.1 kv.2 with
      | Except.error e => Except.error e
      | Except.ok cw =>
          readComps tenPow catalog minEw rest
            (acc.1 ++ [cw.1], acc.2 ++ cw.2)

/-- The method `IGMGuessesGui.read_previous`, restricted to persistent
session state.  It first checks the stored FWHM against the session
FWHM and raises ValueError on mismatch, so no later state is touched in
that case.  Then bad pixels are restored, a mismatched spectrum file
name is recorded as a non fatal warning, and the components are rebuilt
one by one and appended to the registry.  The result is the updated
(registry, bad pixel array) pair together with all warnings in emission
order. -/
def read_previous (tenPow : ℚ → ℚ) (catalog : ℚ → List Transition)
    (minEw : ℚ) (d : IGMGDict) (fwhm : ℚ) (specFile : String)
    (comps : List Comp) (badPixels : List ℤ) :
    Except PyErr ((List Comp × List ℤ) × List String) :=
  if d.fwhm ≠ fwhm then Except.error PyErr.valueError
  else
    let bp := d.bad_pixels.foldl (fun arr i => arr.set i 1) badPixels
    let warnsFile :=
      if specFile ≠ d.spec_file then [specFileWarning] else []
    match readComps tenPow catalog minEw d.cmps (comps, []) with
    | Except.error e => Except.error e
    | Except.ok r => Except.ok ((r.1, bp), warnsFile ++ r.2)

/-- Velocity offset of a component from the current redshift, the
expression `c_mks * (self.z - comp.zcomp) / (1 + self.z)` of the S and
D key handlers. -/
def dvzOf (z zcomp : ℚ) : ℚ := c_mks * (z - zcomp) / (1 + z)

/-- Indices of the components whose anchor rest wavelength equals the
rest wavelength of the clicked panel:
`mtc = np.where(wrest == iwrest)[0]` where
`iwrest = [comp.init_wrest for comp in components]`, that is the
ascending list of indices i with `components[i].init_wrest == wrest`. -/
def matchIdx (components : List Comp) (wrest : ℚ) : List ℕ :=
  (List.range components.length).filter
    (fun i => decide ((components.getD i default).initWrest = wrest))

/-- Index of the first minimal element of a list, the semantics of
`np.argmin` (ties resolve to the earliest index; the empty case is
unreachable at the call site, 0 is returned). -/
def argminList (xs : List ℚ) : ℕ :=
  match xs.minimum with
  | none => 0
  | some m => xs.indexOf m

/-- Core of the S and D key handlers: among the components matching the
panel, pick the one whose `|dvz + event.xdata|` is minimal
(`mindvz = np.argmin(np.abs(dvz + event.xdata))`); with no match the
handler returns without touching any state. -/
def nearestCompIdx (components : List Comp) (z wrest xdata : ℚ) :
    Option ℕ :=
  let mtc := matchIdx components wrest
  if mtc.isEmpty then none
  else
    let dvzs := mtc.map
      (fun i => |dvzOf z (components.getD i default).zcomp + xdata|)
    some (mtc.getD (argminList dvzs) 0)

/-- Effect of the S key on the selection state: the nearest matching
component becomes the fiddle selection; with no match the selection is
unchanged. -/
def onKeyS (components : List Comp) (selected : Option Comp)
    (z wrest xdata : ℚ) : Option Comp :=
  match nearestCompIdx components z wrest xdata with
  | none => selected
  | some i => some (components.getD i default)

/-- Effect of the D key on the registry: the nearest matching component
is removed (deletion resolves the component name back to its registry
index; names are unique, so this removes exactly the chosen index);
with no match the registry is unchanged. -/
def onKeyD (components : List Comp) (z wrest xdata : ℚ) : List Comp :=
  match nearestCompIdx components z wrest xdata with
  | none => components
  | some i => components.eraseIdx i

/-- Concrete stand-in for the float exponential `10.0 ** x`, used to
evaluate the model on closed inputs.  Any function works for the
structural properties; this one makes the equivalent width of a line
equal to `f * wrest ^ 2`. -/
def exTenPow : ℚ → ℚ := fun _ => ewDenom

/-- Concrete stand-in for `voigt_from_abslines` on closed inputs. -/
def exVoigt : List ℚ → List AbsLine → ℚ → List ℚ :=
  fun wl _ _ => wl.map (fun _ => 0)

/-- Concrete catalog that matches no transition. -/
def exCatalogEmpty : ℚ → List Transition := fun _ => []

/-- Concrete transition used by the closed evaluations. -/
def exTrans : Transition := { wrest := 1, f := 1, Ej := 0, name := "HI 1215" }

/-- Concrete catalog returning one transition for every query. -/
def exCatalog : ℚ → List Transition := fun _ => [exTrans]

/-- Concrete line whose equivalent width under `exTenPow` is 2. -/
def exLineStrong : AbsLine :=
  { wrest := 1, f := 2, Ej := 0, name := "HI 1215",
    z := 1, logN := 0, b := 2, N := 0, vlimLo := -300, vlimHi := 300 }

/-- Concrete line whose equivalent width under `exTenPow` is 0. -/
def exLineWeak : AbsLine :=
  { exLineStrong with f := 0, name := "HI 1025" }

/-- Concrete equivalent width threshold separating the two lines. -/
def exMinEw : ℚ := 1

/-- Concrete component in the synced, freshly masked state the GUI
maintains: one strong line kept for fitting, one weak line masked
out. -/
def exComp : Comp :=
  { zcomp := 1, vlimLo := -300, vlimHi := 300, initWrest := 1,
    name := "z1_HI", comment := "c", logN := 0, z := 1, b := 2,
    reliability := "a",
    abslines := [exLineStrong, exLineWeak],
    maskAbslines := [2, 0] }

/-- Concrete component whose only line is masked out, so that the model
synthesizer collects no good line from it. -/
def exCompMasked : Comp :=
  { exComp with abslines := [exLineStrong], maskAbslines := [0] }

/-- Concrete wavelength grid covering the observed wavelength 2 of
`exLineStrong`. -/
def exWl : List ℚ := [1, 2, 3]

/-- Concrete component with a single display-only line (mask 1). -/
def exCompDisplay : Comp :=
  { exComp with abslines := [exLineStrong], maskAbslines := [1] }

/-- Concrete component anchored at the same panel wavelength as
`exCompB` but at redshift 1, hence far from the cursor. -/
def exCompA : Comp := { exComp with zcomp := 1, name := "A" }

/-- Concrete component anchored at the same panel wavelength as
`exCompA` but at redshift 0, exactly at the cursor. -/
def exCompB : Comp := { exComp with zcomp := 0, name := "B" }

/-- Concrete result of `create_component` on the one-transition
catalog answer. -/
def exCreated : Comp :=
  match create_component 1 1 [exTrans] (-300, 300) with
  | Except.ok c => c
  | Except.error _ => default

/-- Concrete result of reading back the serialized `exComp`. -/
def exReadPair : Comp × List String :=
  match readCompRecord exTenPow exCatalog exMinEw exComp.name
      (compToRecord exComp) with
  | Except.ok p => p
  | Except.error _ => (default, [])

/-- Concrete persisted document with FWHM 3 and no components. -/
def exDict : IGMGDict :=
  { fwhm := 3, spec_file := "a.fits", bad_pixels := [], cmps := [] }

/-- Concrete second component at the same anchor and redshift as
`exCompB`, to exercise the tie case of the nearest lookup. -/
def exCompB2 : Comp := { exCompB with name := "B2" }

/-- Concrete component owning no lines at all, whose record reading
involves no equivalent width arithmetic. -/
def exCompEmpty : Comp :=
  { exComp with abslines := [], maskAbslines := [] }

/-- Concrete result of reading back the serialized `exCompEmpty`. -/
def exReadEmpty : Comp × List String :=
  match readCompRecord exTenPow exCatalog exMinEw "k"
      (compToRecord exCompEmpty) with
  | Except.ok p => p
  | Except.error _ => (default, [])

/-! ### Helper lemmas about the masking loop -/

theorem maskLoop_length (tenPow : ℚ → ℚ) (minEw : ℚ) :
    ∀ (ls : List AbsLine) (ms : List ℤ),
      (maskLoop tenPow minEw ls ms).length = ms.length
  | [], _ => rfl
  | _ :: _, [] => rfl
  | l :: ls, m :: ms => by
      simp only [maskLoop, List.length_cons,
        maskLoop_length tenPow minEw ls ms]

theorem maskLoop_getD (tenPow : ℚ → ℚ) (minEw : ℚ) :
    ∀ (ls : List AbsLine) (ms : List ℤ) (i : ℕ),
      i < ls.length → i < ms.length →
      (maskLoop tenPow minEw ls ms).getD i 0 =
        maskStep tenPow minEw (ls.getD i default) (ms.getD i 0)
  | [], _, i, h1, _ => absurd h1 (by simp)
  | _ :: _, [], i, _, h2 => absurd h2 (by simp)
  | l :: ls, m :: ms, 0, _, _ => by
      simp [maskLoop]
  | l :: ls, m :: ms, i + 1, h1, h2 => by
      simp only [maskLoop, List.getD_cons_succ]
      exact maskLoop_getD tenPow minEw ls ms i
        (by simpa using h1) (by simpa using h2)

theorem maskStep_tri (tenPow : ℚ → ℚ) (minEw : ℚ) (l : AbsLine) (m : ℤ)
    (hm : m = 0 ∨ m = 1 ∨ m = 2) :
    maskStep tenPow minEw l m = 0 ∨ maskStep tenPow minEw l m = 1 ∨
      maskStep tenPow minEw l m = 2 := by
  unfold maskStep
  split
  · exact Or.inl rfl
  · split
    · exact Or.inr (Or.inr rfl)
    · exact hm

theorem maskLoop_mem_tri (tenPow : ℚ → ℚ) (minEw : ℚ) :
    ∀ (ls : List AbsLine) (ms : List ℤ),
      (∀ m ∈ ms, m = 0 ∨ m = 1 ∨ m = 2) →
      ∀ m' ∈ maskLoop tenPow minEw ls ms, m' = 0 ∨ m' = 1 ∨ m' = 2
  | [], _, hms, m', hm' => hms m' hm'
  | _ :: _, [], _, m', hm' => absurd hm' (by simp [maskLoop])
  | l :: ls, m :: ms, hms, m', hm' => by
      rcases (List.mem_cons).mp hm' with h | h
      · subst h
        exact maskStep_tri tenPow minEw l m (hms m (by simp))
      · exact maskLoop_mem_tri tenPow minEw ls ms
          (fun x hx => hms x (by simp [hx])) m' h

theorem maskStep_idem (tenPow : ℚ → ℚ) (minEw : ℚ) (l : AbsLine) (m : ℤ) :
    maskStep tenPow minEw l (maskStep tenPow minEw l m) =
      maskStep tenPow minEw l m := by
  by_cases h : ewLine tenPow l < minEw
  · simp [maskStep, h]
  · by_cases hm : m = 0
    · simp [maskStep, h, hm]
    · simp [maskStep, h, hm]

theorem maskLoop_idem (tenPow : ℚ → ℚ) (minEw : ℚ) :
    ∀ (ls : List AbsLine) (ms : List ℤ),
      maskLoop tenPow minEw ls (maskLoop tenPow minEw ls ms) =
        maskLoop tenPow minEw ls ms
  | [], _ => rfl
  | _ :: _, [] => rfl
  | l :: ls, m :: ms => by
      simp only [maskLoop, maskStep_idem, List.cons.injEq, true_and]
      exact maskLoop_idem tenPow minEw ls ms

theorem maskLoop_id_of (tenPow : ℚ → ℚ) (minEw : ℚ) :
    ∀ (ls : List AbsLine) (ms : List ℤ),
      (∀ p ∈ ls.zip ms, ¬(ewLine tenPow p.1 < minEw) ∧ p.2 ≠ 0) →
      maskLoop tenPow minEw ls ms = ms
  | [], _, _ => rfl
  | _ :: _, [], _ => rfl
  | l :: ls, m :: ms, h => by
      have hp := h (l, m) (by simp [List.zip_cons_cons])
      simp only [maskLoop, maskStep, if_neg hp.1, if_neg hp.2,
        List.cons.injEq, true_and]
      exact maskLoop_id_of tenPow minEw ls ms
        (fun p hmem => h p (by simp [List.zip_cons_cons, hmem]))

/-! ### Helper lemmas about argmin and nearest-component lookup -/

theorem minimum_coe_of_ne_nil {xs : List ℚ} (h : xs ≠ []) :
    ∃ m : ℚ, xs.minimum = ↑m := by
  cases hmin : xs.minimum with
  | top => exact absurd (List.minimum_eq_top.mp hmin) h
  | coe m => exact ⟨m, rfl⟩

theorem argminList_lt_length {xs : List ℚ} (h : xs ≠ []) :
    argminList xs < xs.length := by
  obtain ⟨m, hm⟩ := minimum_coe_of_ne_nil h
  have hmem := List.minimum_mem hm
  unfold argminList
  rw [hm]
  exact List.indexOf_lt_length.mpr hmem

theorem argminList_getD_le {xs : List ℚ} (h : xs ≠ []) :
    ∀ y ∈ xs, xs.getD (argminList xs) 0 ≤ y := by
  obtain ⟨m, hm⟩ := minimum_coe_of_ne_nil h
  have hmem := List.minimum_mem hm
  have hlt : List.indexOf m xs < xs.length :=
    List.indexOf_lt_length.mpr hmem
  have hval : xs.getD (argminList xs) 0 = m := by
    unfold argminList
    rw [hm, List.getD_eq_getElem _ _ hlt]
    exact List.getElem_indexOf hlt
  intro y hy
  rw [hval]
  exact (List.minimum_eq_coe_iff.mp hm).2 y hy

theorem mem_matchIdx {components : List Comp} {wrest : ℚ} {i : ℕ} :
    i ∈ matchIdx components wrest ↔
      i < components.length ∧
        (components.getD i default).initWrest = wrest := by
  simp [matchIdx, List.mem_filter, List.mem_range]

/-! ### Helper lemmas about record reading -/

theorem readRel_ok_of {rec : CompRecord}
    (h : rec.reliability ≠ none ∨ rec.quality ≠ none) :
    ∃ r, readRel rec = Except.ok r := by
  unfold readRel
  cases hrel : rec.reliability with
  | some r => exact ⟨r, rfl⟩
  | none =>
      cases hq : rec.quality with
      | some q => exact ⟨q, rfl⟩
      | none =>
          rcases h with h | h
          · exact absurd hrel h
          · exact absurd hq h

theorem readCompRecord_eq_of_lines {tenPow : ℚ → ℚ}
    {catalog : ℚ → List Transition} {minEw : ℚ} {key : String}
    {rec : CompRecord} {L : List AbsLine} {M : List ℤ} {r : String}
    (hL : rec.lines = some L) (hM : rec.mask_abslines = some M)
    (hr : readRel rec = Except.ok r) :
    readCompRecord tenPow catalog minEw key rec =
      Except.ok
        (mask_comp_lines tenPow minEw (sync_comp_lines
          { fromDictComp rec L with
            maskAbslines := M, name := key, z := rec.zfit,
            b := rec.bfit, logN := rec.Nfit, reliability := r,
            comment := rec.comment }), []) := by
  unfold readCompRecord readCompBase
  rw [hL, hM, hr]

theorem readCompRecord_eq_nomask {tenPow : ℚ → ℚ}
    {catalog : ℚ → List Transition} {minEw : ℚ} {key : String}
    {rec : CompRecord} {L : List AbsLine} {r : String}
    (hL : rec.lines = some L) (hM : rec.mask_abslines = none)
    (hr : readRel rec = Except.ok r) :
    readCompRecord tenPow catalog minEw key rec =
      Except.ok
        (mask_comp_lines tenPow minEw (sync_comp_lines
          { fromDictComp rec L with
            maskAbslines := List.replicate L.length 2, name := key,
            z := rec.zfit, b := rec.bfit, logN := rec.Nfit,
            reliability := r, comment := rec.comment }),
         [maskDefaultWarning]) := by
  unfold readCompRecord readCompBase
  rw [hL, hM, hr]
  rfl

theorem readCompRecord_eq_legacy {tenPow : ℚ → ℚ}
    {catalog : ℚ → List Transition} {minEw : ℚ} {key : String}
    {rec : CompRecord} {c0 : Comp} {r : String}
    (hL : rec.lines = none)
    (hcat : create_component rec.zcomp rec.wrest (catalog rec.wrest)
        rec.vlim = Except.ok c0)
    (hr : readRel rec = Except.ok r) :
    readCompRecord tenPow catalog minEw key rec =
      Except.ok
        (mask_comp_lines tenPow minEw (sync_comp_lines
          { c0 with
            name := key, z := rec.zfit, b := rec.bfit,
            logN := rec.Nfit, reliability := r,
            comment := rec.comment }), []) := by
  unfold readCompRecord readCompBase
  rw [hL, hcat, hr]

theorem maskLoop_pruned_id (tenPow : ℚ → ℚ) (minEw : ℚ) (c : Comp)
    (hsync : ∀ l ∈ c.abslines, l.logN = c.logN)
    (hcons : ∀ p ∈ c.abslines.zip c.maskAbslines,
        ewLine tenPow p.1 < minEw → p.2 = 0) :
    maskLoop tenPow minEw
      ((((c.abslines.zip c.maskAbslines).filter
          (fun p => p.2 != 0)).map Prod.fst).map
        (fun l => { l with logN := c.logN, b := c.b, z := c.z }))
      (((c.abslines.zip c.maskAbslines).filter
          (fun p => p.2 != 0)).map Prod.snd) =
    ((c.abslines.zip c.maskAbslines).filter
        (fun p => p.2 != 0)).map Prod.snd := by
  apply maskLoop_id_of
  intro p hp
  rw [List.map_map, List.zip_map'] at hp
  obtain ⟨q, hq, rfl⟩ := List.mem_map.mp hp
  obtain ⟨hqz, hq0⟩ := List.mem_filter.mp hq
  have hq0' : q.2 ≠ 0 := by simpa using hq0
  have hmem1 : q.1 ∈ c.abslines := (List.of_mem_zip hqz).1
  have hewq : ewLine tenPow
      (({ q.1 with logN := c.logN, b := c.b, z := c.z } : AbsLine)) =
      ewLine tenPow q.1 := by
    simp [ewLine, hsync q.1 hmem1]
  constructor
  · intro hlt
    apply hq0'
    apply hcons q hqz
    simpa [hewq] using hlt
  · exact hq0'

theorem nearestCompIdx_spec {components : List Comp} {z wrest xdata : ℚ}
    {i : ℕ} (h : nearestCompIdx components z wrest xdata = some i) :
    i ∈ matchIdx components wrest ∧
      ∀ j ∈ matchIdx components wrest,
        |dvzOf z (components.getD i default).zcomp + xdata| ≤
          |dvzOf z (components.getD j default).zcomp + xdata| := by
  unfold nearestCompIdx at h
  by_cases hmtc : (matchIdx components wrest).isEmpty
  · simp [hmtc] at h
  · rw [if_neg hmtc] at h
    have hne : matchIdx components wrest ≠ [] := by
      intro hnil
      exact hmtc (by simp [hnil])
    set mtc := matchIdx components wrest with hmtcdef
    set g : ℕ → ℚ :=
      fun j => |dvzOf z (components.getD j default).zcomp + xdata| with hg
    have hdne : mtc.map g ≠ [] := by
      simpa using hne
    have hk : argminList (mtc.map g) < (mtc.map g).length :=
      argminList_lt_length hdne
    have hk2 : argminList (mtc.map g) < mtc.length := by
      simpa using hk
    have hchosen : mtc.getD (argminList (mtc.map g)) 0 ∈ mtc := by
      rw [List.getD_eq_getElem _ _ hk2]
      exact List.getElem_mem hk2
    have hi : i = mtc.getD (argminList (mtc.map g)) 0 := by
      exact (Option.some.injEq _ _ ▸ h).symm
    constructor
    · rw [hi]; exact hchosen
    · intro j hj
      have hval : (mtc.map g).getD (argminList (mtc.map g)) 0 = g i := by
        rw [List.getD_eq_getElem _ _ hk, List.getElem_map,
          hi, List.getD_eq_getElem _ _ hk2]
      have hle := argminList_getD_le hdne (g j)
        (List.mem_map_of_mem g hj)
      rw [hval] at hle
      exact hle

/-! ### Claim theorems -/

/-- C3: for every component and threshold, `mask_comp_lines` computes
for each line the optically thin equivalent width
EW = f * wrest^2 * 10^logN / (1.13e12 * cm), with logN the component
current log column density (the lines are synced), and afterwards every
line with EW below the threshold has mask 0, while every line with EW
at or above the threshold that previously had mask 0 has mask 2. -/
theorem c3_mask_policy (tenPow : ℚ → ℚ) (minEw : ℚ) (comp : Comp)
    (hsync : ∀ l ∈ comp.abslines, l.logN = comp.logN) :
    ∀ i, i < comp.abslines.length → i < comp.maskAbslines.length →
      ((comp.abslines.getD i default).f *
          (comp.abslines.getD i default).wrest ^ 2 *
          tenPow comp.logN / ewDenom < minEw →
        (mask_comp_lines tenPow minEw comp).maskAbslines.getD i 0 = 0) ∧
      (¬((comp.abslines.getD i default).f *
          (comp.abslines.getD i default).wrest ^ 2 *
          tenPow comp.logN / ewDenom < minEw) →
        comp.maskAbslines.getD i 0 = 0 →
        (mask_comp_lines tenPow minEw comp).maskAbslines.getD i 0 = 2) := by
  intro i h1 h2
  have hmem : comp.abslines.getD i default ∈ comp.abslines := by
    rw [List.getD_eq_getElem _ _ h1]
    exact List.getElem_mem h1
  have hew : ewLine tenPow (comp.abslines.getD i default) =
      (comp.abslines.getD i default).f *
        (comp.abslines.getD i default).wrest ^ 2 *
        tenPow comp.logN / ewDenom := by
    unfold ewLine
    rw [hsync _ hmem]
  have hget : (mask_comp_lines tenPow minEw comp).maskAbslines.getD i 0 =
      maskStep tenPow minEw (comp.abslines.getD i default)
        (comp.maskAbslines.getD i 0) := by
    simp only [mask_comp_lines]
    exact maskLoop_getD tenPow minEw _ _ i h1 h2
  constructor
  · intro hlt
    have hlt' : ewLine tenPow (comp.abslines.getD i default) < minEw := by
      rw [hew]
      exact hlt
    rw [hget]
    unfold maskStep
    rw [if_pos hlt']
  · intro hge h0
    have hge' : ¬ ewLine tenPow (comp.abslines.getD i default) < minEw := by
      rw [hew]
      exact hge
    rw [hget]
    unfold maskStep
    rw [if_neg hge', if_pos h0]

/-- C3 witness: on the concrete component `exComp` the weak line at
index 1 falls below the threshold and gets mask 0. -/
theorem c3_witness :
    (mask_comp_lines exTenPow exMinEw exComp).maskAbslines.getD 1 0 =
      0 :=
  ((c3_mask_policy exTenPow exMinEw exComp
    (by simp [exComp, exLineStrong, exLineWeak]) 1
    (by simp [exComp, exLineStrong, exLineWeak])
    (by simp [exComp, exLineStrong, exLineWeak])).1)
    (by simp [exComp, exLineStrong, exLineWeak, exTenPow, exMinEw,
      ewDenom])

/-- C4: masking is idempotent: for every component, calling
`mask_comp_lines` twice in a row with the same logN and threshold
produces the same component (in particular the same mask array) as
calling it once. -/
theorem c4_mask_idempotent (tenPow : ℚ → ℚ) (minEw : ℚ) (comp : Comp) :
    mask_comp_lines tenPow minEw (mask_comp_lines tenPow minEw comp) =
      mask_comp_lines tenPow minEw comp := by
  simp [mask_comp_lines, maskLoop_idem]

/-- C6 (amended): with zero matching transitions `create_component`
fails, but with an IndexError from `abslines[0]` rather than a
ValueError; with at least one matching transition it builds one
AbsorptionLine per transition, each carrying the component redshift and
velocity limits, and every mask entry is 2. -/
theorem c6_create_component (z wrest : ℚ) (allTrans : List Transition)
    (vlim : ℚ × ℚ) :
    (allTrans = [] →
      create_component z wrest allTrans vlim =
        Except.error PyErr.indexError) ∧
    (allTrans ≠ [] →
      (create_component z wrest allTrans vlim).map Comp.abslines =
          Except.ok (allTrans.map (lineFromTrans z vlim)) ∧
        (create_component z wrest allTrans vlim).map Comp.maskAbslines =
          Except.ok (List.replicate allTrans.length 2)) ∧
    ∀ l ∈ allTrans.map (lineFromTrans z vlim),
      l.z = z ∧ l.vlimLo = vlim.1 ∧ l.vlimHi = vlim.2 := by
  refine ⟨?_, ?_, ?_⟩
  · intro h
    subst h
    rfl
  · intro h
    cases allTrans with
    | nil => exact absurd rfl h
    | cons t ts =>
        constructor
        · rfl
        · simp [create_component, Except.map]
  · intro l hl
    obtain ⟨t, ht, rfl⟩ := List.mem_map.mp hl
    exact ⟨rfl, rfl, rfl⟩

/-- C6 witness: a singleton catalog answer yields a component whose one
line carries the redshift, the velocity limits and mask 2. -/
theorem c6_witness :
    (create_component 1 1 [exTrans] (-300, 300)).map Comp.abslines =
        Except.ok ([exTrans].map (lineFromTrans 1 (-300, 300))) ∧
      (create_component 1 1 [exTrans] (-300, 300)).map
          Comp.maskAbslines =
        Except.ok (List.replicate 1 2) :=
  (c6_create_component 1 1 [exTrans] (-300, 300)).2.1 (by simp)

/-- C9: `write_out` does not mutate the live registry: the registry
after the call is the input registry, and the dropping of mask 0 lines
happens only in the serialized records, which hold exactly the
filtered (line, mask) pairs of each component. -/
theorem c9_write_out_pure (comps : List Comp) (specFile : String)
    (fwhm : ℚ) (badPixels : List ℤ) :
    (write_out comps specFile fwhm badPixels).1 = comps ∧
      (write_out comps specFile fwhm badPixels).2.cmps =
        comps.map (fun c => (c.name, compToRecord c)) ∧
      ∀ c : Comp,
        (compToRecord c).lines =
            some (((c.abslines.zip c.maskAbslines).filter
              (fun p => p.2 != 0)).map Prod.fst) ∧
          (compToRecord c).mask_abslines =
            some (((c.abslines.zip c.maskAbslines).filter
              (fun p => p.2 != 0)).map Prod.snd) :=
  ⟨rfl, rfl, fun _ => ⟨rfl, rfl⟩⟩

/-- C10: for a component whose mask entries all lie in 0, 1, 2, after
`mask_comp_lines` every entry still lies in 0, 1, 2, and a display-only
line (mask 1) whose estimated equivalent width is at or above the
threshold keeps mask 1. -/
theorem c10_mask_range (tenPow : ℚ → ℚ) (minEw : ℚ) (comp : Comp)
    (htri : ∀ m ∈ comp.maskAbslines, m = 0 ∨ m = 1 ∨ m = 2) :
    (∀ m ∈ (mask_comp_lines tenPow minEw comp).maskAbslines,
        m = 0 ∨ m = 1 ∨ m = 2) ∧
      ∀ i, i < comp.abslines.length → i < comp.maskAbslines.length →
        comp.maskAbslines.getD i 0 = 1 →
        ¬(ewLine tenPow (comp.abslines.getD i default) < minEw) →
        (mask_comp_lines tenPow minEw comp).maskAbslines.getD i 0 = 1 := by
  constructor
  · exact maskLoop_mem_tri tenPow minEw _ _ htri
  · intro i h1 h2 hm hew
    have hget := maskLoop_getD tenPow minEw comp.abslines
      comp.maskAbslines i h1 h2
    simp only [mask_comp_lines]
    rw [hget, hm]
    unfold maskStep
    rw [if_neg hew]
    simp

/-- C10 witness: the display-only line of `exCompDisplay` is strong
enough and keeps mask 1. -/
theorem c10_witness :
    (mask_comp_lines exTenPow exMinEw exCompDisplay).maskAbslines.getD
        0 0 = 1 :=
  (c10_mask_range exTenPow exMinEw exCompDisplay
    (by simp [exCompDisplay, exComp])).2 0
    (by simp [exCompDisplay, exComp])
    (by simp [exCompDisplay, exComp])
    (by simp [exCompDisplay, exComp])
    (by simp [exCompDisplay, exComp, exLineStrong, ewLine, exTenPow,
      exMinEw, ewDenom])

/-- C1 (amended): the model recompute is a deterministic function of
the registry and the spectrum whenever the registry is empty or at
least one unmasked in-coverage line exists; when the registry is
nonempty but no good line exists, the prior model array is returned
untouched, so the output does depend on the prior model contents.
Recomputing twice in a row with unchanged inputs always yields
identical output.  The prior model arrays are required to have equal
length, which the session guarantees (the model grid always matches the
spectrum grid). -/
theorem c1_update_model_det (tenPow : ℚ → ℚ)
    (voigt : List ℚ → List AbsLine → ℚ → List ℚ)
    (comps : List Comp) (wl : List ℚ) (fwhm : ℚ)
    (p1 p2 : List ℚ) (hlen : p1.length = p2.length) :
    ((comps = [] ∨
        gdlinOf tenPow comps (listMin wl) (listMax wl) ≠ []) →
      update_model tenPow voigt comps wl fwhm p1 =
        update_model tenPow voigt comps wl fwhm p2) ∧
    update_model tenPow voigt comps wl fwhm
        (update_model tenPow voigt comps wl fwhm p1) =
      update_model tenPow voigt comps wl fwhm p1 := by
  constructor
  · intro h
    by_cases hc : comps.isEmpty
    · simp only [update_model, hc, if_pos]
      rw [List.map_const', List.map_const', hlen]
    · rcases h with h | h
      · exact absurd (by simp [h]) hc
      · have hg : ¬ ((gdlinOf tenPow comps (listMin wl)
            (listMax wl)).isEmpty = true) := by
          intro hh
          exact h (List.isEmpty_iff.mp hh)
        simp only [update_model, hc, if_neg hg]
        simp [hg]
  · by_cases hc : comps.isEmpty
    · simp [update_model, hc, List.map_map, Function.comp]
    · by_cases hg : (gdlinOf tenPow comps (listMin wl)
          (listMax wl)).isEmpty
      · simp [update_model, hc, hg]
      · simp [update_model, hc, hg]

/-- C1 witness: with an empty registry the recompute is independent of
the prior model contents and idempotent. -/
theorem c1_witness :
    (update_model exTenPow exVoigt [] exWl 3 [5] =
        update_model exTenPow exVoigt [] exWl 3 [8]) ∧
      update_model exTenPow exVoigt [] exWl 3
          (update_model exTenPow exVoigt [] exWl 3 [5]) =
        update_model exTenPow exVoigt [] exWl 3 [5] :=
  ⟨(c1_update_model_det exTenPow exVoigt [] exWl 3 [5] [8]
      (by simp)).1 (Or.inl rfl),
   (c1_update_model_det exTenPow exVoigt [] exWl 3 [5] [8]
      (by simp)).2⟩

/-- C1 counterexample: with a nonempty registry whose only line is
masked out, the recompute leaves the prior model array in place, so two
runs with identical components, masks and spectrum but different prior
model contents give different outputs, contradicting the claim that
the result is independent of the model array prior contents. -/
theorem c1_counterexample :
    update_model exTenPow exVoigt [exCompMasked] exWl 3 [5] ≠
      update_model exTenPow exVoigt [exCompMasked] exWl 3 [7] := by
  simp [update_model, gdlinOf, goodLinePair, exCompMasked, exComp,
    exLineStrong, exWl, listMin, listMax]

/-- C7: the S and D commands act on the component, among those whose
anchor rest wavelength equals the clicked panel transition, that
minimizes the absolute velocity offset |dvz + cursor offset| with
dvz = c * (z - zcomp) / (1 + z); when no component matches the panel,
neither the selection nor the registry changes. -/
theorem c7_nearest_selection (components : List Comp)
    (selected : Option Comp) (z wrest xdata : ℚ) :
    (matchIdx components wrest = [] →
      onKeyS components selected z wrest xdata = selected ∧
        onKeyD components z wrest xdata = components) ∧
    ∀ i, nearestCompIdx components z wrest xdata = some i →
      i < components.length ∧
        (components.getD i default).initWrest = wrest ∧
        (∀ j, j < components.length →
          (components.getD j default).initWrest = wrest →
          |dvzOf z (components.getD i default).zcomp + xdata| ≤
            |dvzOf z (components.getD j default).zcomp + xdata|) ∧
        onKeyS components selected z wrest xdata =
          some (components.getD i default) ∧
        onKeyD components z wrest xdata = components.eraseIdx i := by
  constructor
  · intro h
    have hn : nearestCompIdx components z wrest xdata = none := by
      simp [nearestCompIdx, h]
    exact ⟨by simp [onKeyS, hn], by simp [onKeyD, hn]⟩
  · intro i hi
    obtain ⟨hmem, hmin⟩ := nearestCompIdx_spec hi
    obtain ⟨hlt, hw⟩ := mem_matchIdx.mp hmem
    refine ⟨hlt, hw, ?_, by simp [onKeyS, hi], by simp [onKeyD, hi]⟩
    intro j hj hjw
    exact hmin j (mem_matchIdx.mpr ⟨hj, hjw⟩)

/-- C7 witness: two components at the cursor redshift tie at offset
zero; the first one wins (np.argmin first-found behavior) and the D
command removes exactly it. -/
theorem c7_witness :
    onKeyD [exCompB, exCompB2] 0 1 0 =
      [exCompB, exCompB2].eraseIdx 0 := by
  have hmtc : matchIdx [exCompB, exCompB2] 1 = [0, 1] := by decide
  have hnear : nearestCompIdx [exCompB, exCompB2] 0 1 0 = some 0 := by
    unfold nearestCompIdx
    rw [hmtc]
    simp [argminList, dvzOf, exCompB, exCompB2, exComp,
      List.minimum_cons, List.minimum_nil, List.indexOf_cons]
  exact (((c7_nearest_selection [exCompB, exCompB2] none 0 1 0).2 0
    hnear).2.2.2.2)

/-- C8: the mask array length equals the number of lines after
construction, after every masking call (given the invariant held
before), and after a serialize-then-deserialize round trip. -/
theorem c8_mask_length_invariant :
    (∀ (z wrest : ℚ) (allTrans : List Transition) (vlim : ℚ × ℚ)
        (c : Comp),
      create_component z wrest allTrans vlim = Except.ok c →
      c.maskAbslines.length = c.abslines.length) ∧
    (∀ (tenPow : ℚ → ℚ) (minEw : ℚ) (c : Comp),
      c.maskAbslines.length = c.abslines.length →
      (mask_comp_lines tenPow minEw c).maskAbslines.length =
        (mask_comp_lines tenPow minEw c).abslines.length) ∧
    ∀ (tenPow : ℚ → ℚ) (catalog : ℚ → List Transition) (minEw : ℚ)
        (key : String) (c c' : Comp) (w : List String),
      readCompRecord tenPow catalog minEw key (compToRecord c) =
        Except.ok (c', w) →
      c'.maskAbslines.length = c'.abslines.length := by
  refine ⟨?_, ?_, ?_⟩
  · intro z wrest allTrans vlim c h
    cases allTrans with
    | nil => simp [create_component] at h
    | cons t ts =>
        injection h with h'
        subst h'
        simp
  · intro tenPow minEw c h
    simp only [mask_comp_lines]
    rw [maskLoop_length]
    exact h
  · intro tenPow catalog minEw key c c' w h
    have heq := @readCompRecord_eq_of_lines tenPow catalog minEw key
      (compToRecord c) (pruneComp c).abslines
      (pruneComp c).maskAbslines c.reliability rfl rfl rfl
    rw [heq] at h
    injection h with h1
    injection h1 with h2 h3
    rw [← h2]
    simp only [mask_comp_lines, sync_comp_lines]
    rw [maskLoop_length]
    simp [pruneComp, fromDictComp]

/-- C8 witness: the invariant holds on a freshly constructed component,
after masking `exComp`, and after the round trip of `exCompEmpty`. -/
theorem c8_witness :
    exCreated.maskAbslines.length = exCreated.abslines.length ∧
      ((mask_comp_lines exTenPow exMinEw exComp).maskAbslines.length =
        (mask_comp_lines exTenPow exMinEw exComp).abslines.length) ∧
      exReadEmpty.1.maskAbslines.length =
        exReadEmpty.1.abslines.length :=
  ⟨c8_mask_length_invariant.1 1 1 [exTrans] (-300, 300) exCreated rfl,
   c8_mask_length_invariant.2.1 exTenPow exMinEw exComp rfl,
   c8_mask_length_invariant.2.2 exTenPow exCatalog exMinEw "k"
     exCompEmpty exReadEmpty.1 exReadEmpty.2 rfl⟩

/-- C2 (amended): serializing a component and deserializing the result
preserves logN, z, b, comment and Reliability, and restores the mask
array up to the removal of its zero entries: `write_out` drops mask 0
lines, so the deserialized mask array equals the original one with the
zero entries removed (the component is assumed synced and in the state
left by the masking pass, which the session maintains).  Legacy
records with a `Quality` key instead of `Reliability` deserialize
without error into records carrying that value, records without a
`mask_abslines` key default to all 2 with a warning, and records
without a `lines` key deserialize without error through the catalog
whenever the catalog matches their anchor wavelength. -/
theorem c2_roundtrip (tenPow : ℚ → ℚ) (catalog : ℚ → List Transition)
    (minEw : ℚ) (c : Comp)
    (hsync : ∀ l ∈ c.abslines, l.logN = c.logN)
    (hcons : ∀ p ∈ c.abslines.zip c.maskAbslines,
        ewLine tenPow p.1 < minEw → p.2 = 0) :
    (∃ c', readCompRecord tenPow catalog minEw c.name
        (compToRecord c) = Except.ok (c', []) ∧
      c'.logN = c.logN ∧ c'.z = c.z ∧ c'.b = c.b ∧
      c'.comment = c.comment ∧ c'.reliability = c.reliability ∧
      c'.maskAbslines =
        ((c.abslines.zip c.maskAbslines).filter
          (fun p => p.2 != 0)).map Prod.snd) ∧
    (∀ (key : String) (rec : CompRecord) (L : List AbsLine)
        (M : List ℤ) (q : String),
      rec.lines = some L → rec.mask_abslines = some M →
      rec.reliability = none → rec.quality = some q →
      ∃ c' w, readCompRecord tenPow catalog minEw key rec =
          Except.ok (c', w) ∧ c'.reliability = q) ∧
    (∀ (key : String) (rec : CompRecord) (L : List AbsLine),
      rec.lines = some L → rec.mask_abslines = none →
      (rec.reliability ≠ none ∨ rec.quality ≠ none) →
      ∃ c', readCompRecord tenPow catalog minEw key rec =
          Except.ok (c', [maskDefaultWarning])) ∧
    ∀ (key : String) (rec : CompRecord) (t : Transition)
        (ts : List Transition),
      rec.lines = none → catalog rec.wrest = t :: ts →
      (rec.reliability ≠ none ∨ rec.quality ≠ none) →
      ∃ c', readCompRecord tenPow catalog minEw key rec =
          Except.ok (c', []) ∧
        c'.z = rec.zfit ∧ c'.b = rec.bfit ∧ c'.logN = rec.Nfit ∧
        c'.comment = rec.comment := by
  refine ⟨?_, ?_, ?_, ?_⟩
  · have heq := @readCompRecord_eq_of_lines tenPow catalog minEw
      c.name (compToRecord c) (pruneComp c).abslines
      (pruneComp c).maskAbslines c.reliability rfl rfl rfl
    refine ⟨_, heq, rfl, rfl, rfl, rfl, rfl, ?_⟩
    show maskLoop tenPow minEw
        ((((c.abslines.zip c.maskAbslines).filter
            (fun p => p.2 != 0)).map Prod.fst).map
          (fun l => { l with logN := c.logN, b := c.b, z := c.z }))
        (((c.abslines.zip c.maskAbslines).filter
            (fun p => p.2 != 0)).map Prod.snd) =
      ((c.abslines.zip c.maskAbslines).filter
          (fun p => p.2 != 0)).map Prod.snd
    exact maskLoop_pruned_id tenPow minEw c hsync hcons
  · intro key rec L M q hL hM hrel hq
    have hr : readRel rec = Except.ok q := by
      unfold readRel
      rw [hrel, hq]
    exact ⟨_, _, readCompRecord_eq_of_lines hL hM hr, rfl⟩
  · intro key rec L hL hM hq
    obtain ⟨r, hr⟩ := readRel_ok_of hq
    exact ⟨_, readCompRecord_eq_nomask hL hM hr⟩
  · intro key rec t ts hL hcat hq
    obtain ⟨r, hr⟩ := readRel_ok_of hq
    obtain ⟨c0, hcc⟩ : ∃ c0, create_component rec.zcomp rec.wrest
        (catalog rec.wrest) rec.vlim = Except.ok c0 := by
      rw [hcat]
      exact ⟨_, rfl⟩
    exact ⟨_, readCompRecord_eq_legacy hL hcc hr, rfl, rfl, rfl, rfl⟩

/-- C2 witness: the round trip on the concrete synced, masked component
`exComp` preserves logN, z, b, comment and Reliability, and returns the
mask array with the zero entries removed. -/
theorem c2_witness :
    ∃ c', readCompRecord exTenPow exCatalog exMinEw exComp.name
        (compToRecord exComp) = Except.ok (c', []) ∧
      c'.logN = exComp.logN ∧ c'.z = exComp.z ∧ c'.b = exComp.b ∧
      c'.comment = exComp.comment ∧
      c'.reliability = exComp.reliability ∧
      c'.maskAbslines =
        ((exComp.abslines.zip exComp.maskAbslines).filter
          (fun p => p.2 != 0)).map Prod.snd :=
  (c2_roundtrip exTenPow exCatalog exMinEw exComp
    (by simp [exComp, exLineStrong, exLineWeak])
    (by simp [exComp, exLineStrong, exLineWeak, ewLine, exTenPow,
      exMinEw, ewDenom])).1

/-- C2 counterexample: the claim as stated requires the deserialized
mask array to equal the original; on `exComp`, whose original mask
array is [2, 0], the round trip yields the mask array [2], because the
mask 0 line is dropped at serialization time. -/
theorem c2_counterexample :
    (readCompRecord exTenPow exCatalog exMinEw exComp.name
        (compToRecord exComp)).map (fun p => p.1.maskAbslines) =
      Except.ok [2] ∧
    exComp.maskAbslines ≠ [2] := by
  constructor
  · simp [readCompRecord, readCompBase, readRel, compToRecord,
      pruneComp, fromDictComp, mask_comp_lines, sync_comp_lines,
      maskLoop, maskStep, ewLine, exComp, exTenPow, exMinEw, ewDenom,
      exLineStrong, exLineWeak, Except.map]
  · simp [exComp]

/-- C5: deserialization fails with ValueError whenever the stored fwhm
differs from the session fwhm, independently of everything else in the
file, so no component is constructed and no state is produced; when the
fwhm matches, the spectrum file name influences nothing but the
presence of a non fatal warning. -/
theorem c5_fwhm_check (tenPow : ℚ → ℚ) (catalog : ℚ → List Transition)
    (minEw : ℚ) (d : IGMGDict) (fwhm : ℚ) (specFile : String)
    (comps : List Comp) (badPixels : List ℤ) :
    (d.fwhm ≠ fwhm →
      read_previous tenPow catalog minEw d fwhm specFile comps
        badPixels = Except.error PyErr.valueError) ∧
    (d.fwhm = fwhm →
      read_previous tenPow catalog minEw d fwhm specFile comps
          badPixels =
        (read_previous tenPow catalog minEw d fwhm d.spec_file comps
            badPixels).map
          (fun r => (r.1,
            (if specFile ≠ d.spec_file then [specFileWarning]
              else []) ++ r.2))) := by
  constructor
  · intro h
    unfold read_previous
    rw [if_pos h]
  · intro h
    subst h
    unfold read_previous
    rw [if_neg (show ¬(d.fwhm ≠ d.fwhm) from fun hh => hh rfl)]
    cases hr : readComps tenPow catalog minEw d.cmps (comps, []) with
    | error e => simp [hr, Except.map]
    | ok r => simp [hr, Except.map]

/-- C5 witness: a stored fwhm of 3 against a session fwhm of 2 fails
with ValueError; with matching fwhm 3 and a different spectrum file
name the result only gains the file name warning. -/
theorem c5_witness :
    (read_previous exTenPow exCatalog exMinEw exDict 2 "a.fits" [] [] =
        Except.error PyErr.valueError) ∧
      read_previous exTenPow exCatalog exMinEw exDict 3 "b.fits" []
          [] =
        (read_previous exTenPow exCatalog exMinEw exDict 3
            exDict.spec_file [] []).map
          (fun r => (r.1,
            (if ("b.fits" : String) ≠ exDict.spec_file then
              [specFileWarning] else []) ++ r.2)) :=
  ⟨(c5_fwhm_check exTenPow exCatalog exMinEw exDict 2 "a.fits" []
      []).1 (by simp [exDict]),
   (c5_fwhm_check exTenPow exCatalog exMinEw exDict 3 "b.fits" []
      []).2 (by simp [exDict])⟩

/-- C6 counterexample: on an empty catalog answer `create_component`
raises IndexError, not ValueError, because the failure happens at the
`abslines[0]` access before any ValueError could be raised. -/
theorem c6_counterexample :
    create_component 0 1215 [] (-300, 300) =
        Except.error PyErr.indexError ∧
      PyErr.indexError ≠ PyErr.valueError :=
  ⟨rfl, by decide⟩
